import Mathlib

set_option maxRecDepth 8000

/-!
Verification of the nitro JitHost wire protocol
(`validator/server_jit/jit_machine.go`) and of the retryable-ticket
registry (`arbos` retryables source).

Machine integers are modelled as `Nat` with explicit `% 2 ^ w` where the Go
code wraps; 32-byte hashes and 20-byte addresses are modelled as the `Nat`
value of their big-endian bytes; byte strings are `List Nat` with every
element intended below 256.
-/

/-- Big-endian encoding of `n` into exactly `k` bytes (most significant
first, low bytes of `n` kept when it does not fit). -/
def beBytes : Nat → Nat → List Nat
  | 0, _ => []
  | k + 1, n => beBytes k (n / 256) ++ [n % 256]

/-- Modelled from the spec: `arbmath.UintToBytes` (repo code that is not
under src/). Spec section 4.1 and 6: wire `u64` fields and lengths are
big-endian 8 bytes, "what the child reads". -/
def UintToBytes (n : Nat) : List Nat := beBytes 8 n

/-- Big-endian value of a byte string, as computed by
`binary.BigEndian.Uint64` on 8 bytes and `common.BytesToHash` on 32 bytes. -/
def beNat (bs : List Nat) : Nat := bs.foldl (fun a b => a * 256 + b) 0

/-- GoGlobalState from `validator`: the rollup cursor
(batch, position, block hash, send root). Hashes are the `Nat` value of
their 32 bytes. -/
structure GoGlobalState where
  Batch : Nat
  PosInBatch : Nat
  BlockHash : Nat
  SendRoot : Nat
  deriving DecidableEq

/-- One entry of `entry.BatchInfo`: a batch number and its raw data. -/
structure BatchInfo where
  Number : Nat
  Data : List Nat
  deriving DecidableEq

/-- ValidationInput from `validator`, as consumed by `JitMachine.prove`.
The Go preimage maps are modelled as association lists
(kind, list of (hash, preimage)); map iteration order is unspecified in Go
and the claims do not depend on it. -/
structure ValidationInput where
  Id : Nat
  HasDelayedMsg : Bool
  DelayedMsgNr : Nat
  DelayedMsg : List Nat
  StartState : GoGlobalState
  BatchInfoList : List BatchInfo
  Preimages : List (Nat × List (Nat × List Nat))
  deriving DecidableEq

def successByte : Nat := 0x0
def failureByte : Nat := 0x1
def anotherByte : Nat := 0x3
def readyByte : Nat := 0x4

/-- Framing of a `bytes` field: `writeBytes` in `prove` writes the u64
length then the raw bytes. -/
def writeBytesFrame (data : List Nat) : List Nat := UintToBytes data.length ++ data

/-- Bytes of the start-state block sent by `prove`: batch, pos_in_batch,
block_hash (32 bytes), send_root (32 bytes). -/
def startStateBytes (g : GoGlobalState) : List Nat :=
  UintToBytes g.Batch ++ UintToBytes g.PosInBatch ++
    beBytes 32 g.BlockHash ++ beBytes 32 g.SendRoot

/-- Bytes of the batch-info section: for each entry `0x03`, number, framed
data; terminated by one `0x00`. -/
def batchInfoBytes (l : List BatchInfo) : List Nat :=
  (l.map fun b => anotherByte :: (UintToBytes b.Number ++ writeBytesFrame b.Data)).flatten
    ++ [successByte]

/-- Bytes of the delayed-message section: when present `0x03`, number,
framed data; always terminated by one `0x00`. -/
def delayedBytes (e : ValidationInput) : List Nat :=
  (if e.HasDelayedMsg then
    anotherByte :: (UintToBytes e.DelayedMsgNr ++ writeBytesFrame e.DelayedMsg)
  else []) ++ [successByte]

/-- Bytes of the preimage section: kind count, then per kind one byte of
kind, entry count, and hash plus framed preimage per entry. -/
def preimagesBytes (ps : List (Nat × List (Nat × List Nat))) : List Nat :=
  UintToBytes ps.length ++
    (ps.map fun p =>
      (p.1 % 256) :: (UintToBytes p.2.length ++
        (p.2.map fun hp => beBytes 32 hp.1 ++ writeBytesFrame hp.2).flatten)).flatten

/-- The full request byte stream `prove` writes to the connection, in the
order of the writes in `jit_machine.go`: start state, batch-info section,
delayed section, preimage section, ready byte. -/
def proveRequestBytes (e : ValidationInput) : List Nat :=
  startStateBytes e.StartState ++ batchInfoBytes e.BatchInfoList ++
    delayedBytes e ++ preimagesBytes e.Preimages ++ [readyByte]

/-- Result of parsing the response frame of the child. `fail msg` models
`errors.New(string(message))`; `ioError` models a truncated read error. -/
inductive ProveResult where
  | ok (st : GoGlobalState)
  | fail (msg : List Nat)
  | ioError
  deriving DecidableEq

/-- Byte string of the fixed message of the default branch of the switch
in `prove`. ASCII, so code points equal bytes. -/
def ipcFailureMsg : List Nat :=
  ("inter-process communication failure".data.map Char.toNat)

/-- Reading `n` bytes from a stream modelled as a list: the `read` closure
in `prove` via `io.ReadFull`; fails when fewer than `n` bytes remain. -/
def readN (n : Nat) (bs : List Nat) : Option (List Nat × List Nat) :=
  if n ≤ bs.length then some (bs.take n, bs.drop n) else none

/-- The response-reading loop of `prove`: one byte of kind, then the
failure branch (u64 length, message), the success branch (two u64, two
hashes), or the default branch with the fixed message. Each branch of the
Go switch returns, so the loop body runs once. -/
def parseResponse (bs : List Nat) : ProveResult :=
  match bs with
  | [] => ProveResult.ioError
  | kind :: rest =>
    if kind = failureByte then
      match readN 8 rest with
      | none => ProveResult.ioError
      | some (lenB, r1) =>
        match readN (beNat lenB) r1 with
        | none => ProveResult.ioError
        | some (msg, _) => ProveResult.fail msg
    else if kind = successByte then
      match readN 8 rest with
      | none => ProveResult.ioError
      | some (b, r1) =>
        match readN 8 r1 with
        | none => ProveResult.ioError
        | some (p, r2) =>
          match readN 32 r2 with
          | none => ProveResult.ioError
          | some (h, r3) =>
            match readN 32 r3 with
            | none => ProveResult.ioError
            | some (sr, _) =>
              ProveResult.ok ⟨beNat b, beNat p, beNat h, beNat sr⟩
    else ProveResult.fail ipcFailureMsg

/-- The compiled-in ignore list `ignoreProveBlocks` of `jit_machine.go`,
mapping request ids to the global state returned without contacting the
child. -/
def ignoreProveBlocks : List (Nat × GoGlobalState) :=
  [ (4083577, ⟨9178, 480,
      0xda2d176f5b585b131e1272efbfe458d4682938263fdeda42982083fb14186a84,
      0x73e3fd5339538bb97fb2ab3f1affc7971c8ea591c1f324e22cbc5b4d01b7b4ee⟩),
    (4083578, ⟨9178, 481,
      0x4643b7fc485bb82016e471e5b529350d7214254a268db44441674245c3a7517c,
      0x73e3fd5339538bb97fb2ab3f1affc7971c8ea591c1f324e22cbc5b4d01b7b4ee⟩),
    (4083579, ⟨9178, 482,
      0x7f844e45bda074a45d1def5c782cb935c08ce41b70e1ed47630f6c6fb09d3dee,
      0x73e3fd5339538bb97fb2ab3f1affc7971c8ea591c1f324e22cbc5b4d01b7b4ee⟩),
    (4083580, ⟨9178, 483,
      0xab716dec1cddcd6dbc8a030faf5e42d8a21564954fe41ce056e32786f07c1c27,
      0x73e3fd5339538bb97fb2ab3f1affc7971c8ea591c1f324e22cbc5b4d01b7b4ee⟩),
    (4083581, ⟨9178, 484,
      0xe48aa1956b16280067fecbacc204ae7f8ef88c0545ddb31324610f0cd9ce7665,
      0x73e3fd5339538bb97fb2ab3f1affc7971c8ea591c1f324e22cbc5b4d01b7b4ee⟩),
    (4083583, ⟨9178, 486,
      0xbca6c7d5d8a7384d7420d2cf99c90e7982e0fbc5da77f45de840351a3778988a,
      0x73e3fd5339538bb97fb2ab3f1affc7971c8ea591c1f324e22cbc5b4d01b7b4ee⟩),
    (4083584, ⟨9178, 487,
      0xde2b7be88b2838094cad4c5fca4e1c8984a81b678f6ced24ffeacca0988a9946,
      0x73e3fd5339538bb97fb2ab3f1affc7971c8ea591c1f324e22cbc5b4d01b7b4ee⟩),
    (4083585, ⟨9178, 488,
      0x3146e38c86d842493946b714a5b5f75e2b0f552c7ba7acfd7d034696d56544fc,
      0x73e3fd5339538bb97fb2ab3f1affc7971c8ea591c1f324e22cbc5b4d01b7b4ee⟩),
    (4083586, ⟨9178, 489,
      0x8054732b1def267a85382edb974f435ca3f44d9c700b23c88b281a5fafa4d9f4,
      0x73e3fd5339538bb97fb2ab3f1affc7971c8ea591c1f324e22cbc5b4d01b7b4ee⟩),
    (4083587, ⟨9178, 490,
      0x7a4ef5ef2e7c4aa9f36ded5edcc8c47f587a403e407911da83a72a4efab292e2,
      0x73e3fd5339538bb97fb2ab3f1affc7971c8ea591c1f324e22cbc5b4d01b7b4ee⟩),
    (4083588, ⟨9178, 491,
      0x80250435557ced666a271de830306624a019fd101b4e4ca041551dd78d612702,
      0x73e3fd5339538bb97fb2ab3f1affc7971c8ea591c1f324e22cbc5b4d01b7b4ee⟩),
    (4083589, ⟨9178, 492,
      0x7b3baf30c3a8d7b0fc40d6efab0b943f1f37aba28eb77774681f8c337c3df870,
      0x73e3fd5339538bb97fb2ab3f1affc7971c8ea591c1f324e22cbc5b4d01b7b4ee⟩),
    (4083590, ⟨9178, 493,
      0x5b31ddcd152beed2b56bf36ab68ae90daf9f7a7141a663de0254bf3549dfc0dd,
      0x73e3fd5339538bb97fb2ab3f1affc7971c8ea591c1f324e22cbc5b4d01b7b4ee⟩),
    (4083591, ⟨9178, 494,
      0x3ba2aca6f6ec209b642fe6f8cfcddda1ae23c3ed3e4124c544298b139d107545,
      0x73e3fd5339538bb97fb2ab3f1affc7971c8ea591c1f324e22cbc5b4d01b7b4ee⟩) ]

/-- Outcome of the `prove` dispatch: either the ignore-list short circuit
(no child interaction at all: no stdin write, no TCP listen, accept, read
or write happens on this path in the source), or a session whose request
byte stream is recorded. -/
inductive ProveOutcome where
  | ignored (st : GoGlobalState)
  | session (request : List Nat)
  deriving DecidableEq

/-- Top of `JitMachine.prove`: the ignore-list check happens before any
TCP or stdin activity; otherwise the session sends `proveRequestBytes`. -/
def prove (e : ValidationInput) : ProveOutcome :=
  match ignoreProveBlocks.lookup e.Id with
  | some s => ProveOutcome.ignored s
  | none => ProveOutcome.session (proveRequestBytes e)

/-!
Retryable registry (`arbos` retryables source). The storage layer
(`storage.Storage`, `storage.Queue`) is repo code that is not under src/,
so it is modelled from the spec section 6: substorages are disjoint
namespaces of 32-byte word slots (absent slot reads zero) plus a byte
store; the queue is FIFO (put at tail, get from head).
-/

def numTriesOffset : Nat := 0
def timeoutOffset : Nat := 1
def fromOffset : Nat := 2
def toOffset : Nat := 3
def callvalueOffset : Nat := 4
def beneficiaryOffset : Nat := 5

/-- Modelled from the spec: the substorage rooted at one ticket id.
`word` is the slot map of the storage contract (set_slot_by_u64 and
get_slot_by_u64, default zero); `calldata` is the byte store of the nested
substorage at key `0x01` (write_bytes, get_bytes, get_bytes_size,
delete_bytes with delete reading back as empty). -/
structure RetryableSlots where
  word : Nat → Nat
  calldata : List Nat

/-- Write one 32-byte word slot. -/
def RetryableSlots.setWord (sl : RetryableSlots) (off v : Nat) : RetryableSlots :=
  { sl with word := fun o => if o = off then v else sl.word o }

/-- RetryableState from the source: the retryables storage (a substorage
per ticket id) and the FIFO timeout queue (modelled from the spec storage
contract: put appends at the tail, get pops the head). -/
structure RetryableState where
  retryables : Nat → RetryableSlots
  timeoutQueue : List Nat

/-- Apply an update to the substorage of one ticket id, leaving every
other substorage unchanged. -/
def RetryableState.update (rs : RetryableState) (id : Nat)
    (f : RetryableSlots → RetryableSlots) : RetryableState :=
  { rs with retryables := fun i => if i = id then f (rs.retryables i) else rs.retryables i }

/-- InitializeRetryableState: an initialized empty queue over zeroed
storage. -/
def InitializeRetryableState : RetryableState :=
  { retryables := fun _ => { word := fun _ => 0, calldata := [] }, timeoutQueue := [] }

/-- Retryable handle: the id plus the cached fields of the Go struct.
A `none` cache means a nil Go pointer, read through to backing storage on
first access. The Go field `to` is itself a possibly-nil pointer, so its
nil cache and a genuinely nil `to` are conflated, exactly as in the
source. -/
structure Retryable where
  id : Nat
  numTries : Option Nat
  timeout : Option Nat
  fromAddr : Option Nat
  «to» : Option Nat
  callvalue : Option Nat
  beneficiary : Option Nat
  calldata : Option (List Nat)
  deriving DecidableEq

/-- Modelled from the spec: `util.IntToHash` (repo code not under src/).
Spec section 6: a storage slot holding a small integer is a 32-byte word
with the big-endian representation right-aligned; a negative `int64` is
taken in two-complement form in the 256-bit word, which is forced by the
spec round-trip law that a set timeout reads back unchanged. -/
def IntToHash (i : Int) : Nat := (i % ((2 : Int) ^ 256)).toNat

/-- The Go conversion `int64(t)` applied to a `uint64` value `t`. -/
def int64ofUint64 (t : Nat) : Int :=
  if t < 2 ^ 63 then (t : Int) else (t : Int) - 2 ^ 64

/-- Reading a word as a `uint64`, as `Hash.Big().Uint64()` does: the low
8 bytes. -/
def hashToUint64 (w : Nat) : Nat := w % 2 ^ 64

/-- Reading a word as a 20-byte address, as
`common.BytesToAddress(h.Bytes())` does: the low 20 bytes. -/
def hashToAddress (w : Nat) : Nat := w % 2 ^ 160

/-- Storing a 20-byte address into a word, as
`common.BytesToHash(a.Bytes())` does (left-padded with zeros). -/
def addressToHash (a : Nat) : Nat := a % 2 ^ 160

/-- Storing a big integer into a word, as `common.BigToHash` does
(bytes cropped from the left beyond 32). -/
def bigToHash (v : Nat) : Nat := v % 2 ^ 256

/-- OpenRetryable: absent when the timeout slot holds the zero word
(the sentinel), otherwise a lazy handle with no cached fields. -/
def RetryableState.OpenRetryable (rs : RetryableState) (id currentTimestamp : Nat) :
    Option Retryable :=
  if (rs.retryables id).word timeoutOffset = 0 then none
  else some { id := id, numTries := none, timeout := none, fromAddr := none,
              «to» := none, callvalue := none, beneficiary := none, calldata := none }

/-- NumTries getter: cached value, or the numTries slot read as uint64. -/
def Retryable.NumTries (r : Retryable) (rs : RetryableState) : Nat :=
  match r.numTries with
  | some n => n
  | none => hashToUint64 ((rs.retryables r.id).word numTriesOffset)

/-- Timeout getter: cached value, or the timeout slot read as uint64. -/
def Retryable.Timeout (r : Retryable) (rs : RetryableState) : Nat :=
  match r.timeout with
  | some t => t
  | none => hashToUint64 ((rs.retryables r.id).word timeoutOffset)

/-- From getter: cached value, or the from slot read as an address. -/
def Retryable.From (r : Retryable) (rs : RetryableState) : Nat :=
  match r.fromAddr with
  | some a => a
  | none => hashToAddress ((rs.retryables r.id).word fromOffset)

/-- To getter. The Go method returns a pointer that is never nil: when the
cache pointer is nil it reads the slot and caches the address of a local.
So the result is modelled as the address value. -/
def Retryable.To (r : Retryable) (rs : RetryableState) : Nat :=
  match r.«to» with
  | some a => a
  | none => hashToAddress ((rs.retryables r.id).word toOffset)

/-- Callvalue getter: cached value, or the callvalue slot as a big int. -/
def Retryable.Callvalue (r : Retryable) (rs : RetryableState) : Nat :=
  match r.callvalue with
  | some v => v
  | none => (rs.retryables r.id).word callvalueOffset

/-- Beneficiary getter: cached value, or the beneficiary slot read as an
address. -/
def Retryable.Beneficiary (r : Retryable) (rs : RetryableState) : Nat :=
  match r.beneficiary with
  | some a => a
  | none => hashToAddress ((rs.retryables r.id).word beneficiaryOffset)

/-- Calldata getter: cached value, or the calldata byte store. -/
def Retryable.Calldata (r : Retryable) (rs : RetryableState) : List Nat :=
  match r.calldata with
  | some d => d
  | none => (rs.retryables r.id).calldata

/-- CalldataSize: the cached length, or the byte-store size without
loading the data. -/
def Retryable.CalldataSize (r : Retryable) (rs : RetryableState) : Nat :=
  match r.calldata with
  | some d => d.length
  | none => (rs.retryables r.id).calldata.length

/-- SetTimeout: cache the new value and write the timeout slot through
the backing storage as `util.IntToHash(int64(timeout))`. Returns the
updated handle and registry state. -/
def Retryable.SetTimeout (r : Retryable) (rs : RetryableState) (timeout : Nat) :
    Retryable × RetryableState :=
  ({ r with timeout := some timeout },
   rs.update r.id (fun sl => sl.setWord timeoutOffset (IntToHash (int64ofUint64 timeout))))

/-- SetNumTries: cache the new value and write the numTries slot as a
uint64 word. -/
def Retryable.SetNumTries (r : Retryable) (rs : RetryableState) (n : Nat) :
    Retryable × RetryableState :=
  ({ r with numTries := some n },
   rs.update r.id (fun sl => sl.setWord numTriesOffset n))

/-- IncrementNumTries: read, add one (uint64 wrap), write, return the new
value together with the updated handle and state. -/
def Retryable.IncrementNumTries (r : Retryable) (rs : RetryableState) :
    Retryable × RetryableState × Nat :=
  let n := (r.NumTries rs + 1) % 2 ^ 64
  let p := r.SetNumTries rs n
  (p.1, p.2, n)

/-- TryToReapOneRetryable: on a nonempty queue pop the head id, and when
its retryable is present re-enqueue the id at the tail, otherwise drop it;
no storage slot is touched. -/
def RetryableState.TryToReapOneRetryable (rs : RetryableState) (currentTimestamp : Nat) :
    RetryableState :=
  match rs.timeoutQueue with
  | [] => rs
  | id :: rest =>
    let rs0 : RetryableState := { rs with timeoutQueue := rest }
    match rs0.OpenRetryable id currentTimestamp with
    | some _ => { rs0 with timeoutQueue := rs0.timeoutQueue ++ [id] }
    | none => rs0

/-- CreateRetryable: one best-effort reap step, then write the six fixed
slots and the calldata, enqueue the id, and return the cached handle.
Returns `none` for `to = none`: the Go source calls `to.Bytes()` on the
nil pointer (a value-receiver method), which dereferences nil and panics,
so no handle is ever returned on that path. -/
def RetryableState.CreateRetryable (rs : RetryableState)
    (currentTimestamp id timeout fromA : Nat) («to» : Option Nat)
    (callvalue beneficiary : Nat) (calldata : List Nat) :
    Option (RetryableState × Retryable) :=
  let rs0 := rs.TryToReapOneRetryable currentTimestamp
  match «to» with
  | none => none
  | some toAddr =>
    let ret : Retryable :=
      { id := id, numTries := some 0, timeout := some timeout,
        fromAddr := some fromA, «to» := some toAddr, callvalue := some callvalue,
        beneficiary := some beneficiary, calldata := some calldata }
    let rs1 := rs0.update id (fun sl =>
      { word := fun o =>
          if o = numTriesOffset then 0
          else if o = timeoutOffset then IntToHash (int64ofUint64 timeout)
          else if o = fromOffset then addressToHash fromA
          else if o = toOffset then addressToHash toAddr
          else if o = callvalueOffset then bigToHash callvalue
          else if o = beneficiaryOffset then addressToHash beneficiary
          else sl.word o,
        calldata := calldata })
    some ({ rs1 with timeoutQueue := rs1.timeoutQueue ++ [id] }, ret)

/-- RetryableSizeBytes: zero when absent, otherwise `6*32` plus the size
of the calldata. -/
def RetryableState.RetryableSizeBytes (rs : RetryableState) (id currentTime : Nat) : Nat :=
  match rs.OpenRetryable id currentTime with
  | none => 0
  | some r => 6 * 32 + r.CalldataSize rs

/-- DeleteRetryable: false when absent; otherwise zero all six scalar
slots, delete the calldata, and return true. The queue is not touched. -/
def RetryableState.DeleteRetryable (rs : RetryableState) (id : Nat) :
    RetryableState × Bool :=
  if (rs.retryables id).word timeoutOffset = 0 then (rs, false)
  else
    (rs.update id (fun sl =>
      { word := fun o => if o < 6 then 0 else sl.word o, calldata := [] }), true)

/-- Keepalive: absent gives false; a current timeout above the limit gives
false with no write; otherwise the timeout is set to the uint64 sum and
the result is true. -/
def RetryableState.Keepalive (rs : RetryableState)
    (ticketId currentTimestamp limitBeforeAdd timeToAdd : Nat) :
    RetryableState × Bool :=
  match rs.OpenRetryable ticketId currentTimestamp with
  | none => (rs, false)
  | some retryable =>
    let timeout := retryable.Timeout rs
    if timeout > limitBeforeAdd then (rs, false)
    else
      ((retryable.SetTimeout rs ((timeout + timeToAdd) % 2 ^ 64)).2, true)

/-- The little-endian 8-byte encoding written by
`binary.LittleEndian.PutUint64` into `asBytes`. -/
def PutUint64LE (n : Nat) : List Nat :=
  [n % 256, n / 2 ^ 8 % 256, n / 2 ^ 16 % 256, n / 2 ^ 24 % 256,
   n / 2 ^ 32 % 256, n / 2 ^ 40 % 256, n / 2 ^ 48 % 256, n / 2 ^ 56 % 256]

/-- TxIdForRedeemAttempt: keccak256 of ticket id bytes, one zero byte, and
the little-endian try sequence number. The keccak primitive is the
external hash interface of spec section 6 and is passed as a parameter. -/
def TxIdForRedeemAttempt (keccak256 : List Nat → Nat)
    (ticketId : Nat) (trySequenceNum : Nat) : Nat :=
  keccak256 (beBytes 32 ticketId ++ [0] ++ PutUint64LE trySequenceNum)

/-! Helper lemmas about the byte encodings and the stream reader. -/

theorem beBytes_length (k : Nat) : ∀ n, (beBytes k n).length = k := by
  induction k with
  | zero => intro n; rfl
  | succ k ih => intro n; simp [beBytes, ih]

theorem UintToBytes_length (n : Nat) : (UintToBytes n).length = 8 :=
  beBytes_length 8 n

theorem beNat_UintToBytes (n : Nat) (h : n < 2 ^ 64) : beNat (UintToBytes n) = n := by
  simp [UintToBytes, beBytes, beNat]
  omega

theorem readN_append (xs ys : List Nat) : readN xs.length (xs ++ ys) = some (xs, ys) := by
  simp [readN, List.take_left, List.drop_left]

theorem readN_exact (xs : List Nat) : readN xs.length xs = some (xs, []) := by
  have h := readN_append xs []
  rwa [List.append_nil] at h

/-- C4: reading the response of the child, `prove` case-splits on the
first byte: `0x00` is followed by batch, pos_in_batch (both u64 BE) and
two 32-byte hashes and yields that global state with no error; `0x01` is
followed by a u64 BE length and that many message bytes and yields an
error whose message is exactly that byte string; any other first byte
yields the fixed message "inter-process communication failure". -/
theorem prove_response_cases :
    (∀ b p h sr : List Nat, b.length = 8 → p.length = 8 → h.length = 32 →
      sr.length = 32 →
      parseResponse (successByte :: (b ++ (p ++ (h ++ sr)))) =
        ProveResult.ok ⟨beNat b, beNat p, beNat h, beNat sr⟩)
  ∧ (∀ msg : List Nat, msg.length < 2 ^ 64 →
      parseResponse (failureByte :: (UintToBytes msg.length ++ msg)) =
        ProveResult.fail msg)
  ∧ (∀ k rest, k ≠ successByte → k ≠ failureByte →
      parseResponse (k :: rest) = ProveResult.fail ipcFailureMsg) := by
  refine ⟨?_, ?_, ?_⟩
  · intro b p h sr hb hp hh hsr
    have h1 := readN_append b (p ++ (h ++ sr)); rw [hb] at h1
    have h2 := readN_append p (h ++ sr); rw [hp] at h2
    have h3 := readN_append h sr; rw [hh] at h3
    have h4 := readN_exact sr; rw [hsr] at h4
    simp [parseResponse, successByte, failureByte, h1, h2, h3, h4]
  · intro msg hm
    have h1 := readN_append (UintToBytes msg.length) msg
    rw [UintToBytes_length] at h1
    have h2 := readN_exact msg
    simp [parseResponse, failureByte, h1, beNat_UintToBytes _ hm, h2]
  · intro k rest h0 h1
    simp [parseResponse, successByte, failureByte] at h0 h1 ⊢
    simp [h0, h1]

/-- Witness for `prove_response_cases` at the failure frame carrying the
ASCII bytes of "bad-preimage". -/
theorem prove_response_cases_witness :
    parseResponse (failureByte ::
        (UintToBytes ([98, 97, 100, 45, 112, 114, 101, 105, 109, 97, 103, 101] :
            List Nat).length ++
          [98, 97, 100, 45, 112, 114, 101, 105, 109, 97, 103, 101])) =
      ProveResult.fail [98, 97, 100, 45, 112, 114, 101, 105, 109, 97, 103, 101] :=
  prove_response_cases.2.1
    [98, 97, 100, 45, 112, 114, 101, 105, 109, 97, 103, 101] (by decide)

/-- Concrete input of end-to-end scenario 5 of the spec: empty batch info,
no delayed message, empty preimages. -/
def inputScenario5 : ValidationInput :=
  { Id := 0, HasDelayedMsg := false, DelayedMsgNr := 0, DelayedMsg := [],
    StartState := ⟨7, 3, 0xaa, 0xbb⟩, BatchInfoList := [], Preimages := [] }

/-- C2 counterexample: at the scenario-5 input, the bytes after the start
state are not the claimed ten-byte sequence of nine `0x00` and one `0x04`
(the code writes two section sentinels, an 8-byte zero count and the ready
byte: eleven bytes). -/
theorem prove_request_tail_counterexample :
    ¬ (proveRequestBytes inputScenario5 =
        startStateBytes inputScenario5.StartState ++
          [0x00, 0x00, 0x00, 0x00, 0x00, 0x00, 0x00, 0x00, 0x00, 0x04]) := by
  decide

/-- C2 amended: for every input with empty batch info, no delayed message
and empty preimages, the bytes written after the start state block are
exactly ten `0x00` bytes followed by `0x04` (one end-of-batches sentinel,
one end-of-delayed sentinel, the 8-byte zero preimage-kind count, one
ready byte). -/
theorem prove_request_tail (e : ValidationInput)
    (hb : e.BatchInfoList = []) (hd : e.HasDelayedMsg = false)
    (hp : e.Preimages = []) :
    proveRequestBytes e =
      startStateBytes e.StartState ++
        [0x00, 0x00, 0x00, 0x00, 0x00, 0x00, 0x00, 0x00, 0x00, 0x00, 0x04] := by
  simp [proveRequestBytes, batchInfoBytes, delayedBytes, preimagesBytes,
    hb, hd, hp, UintToBytes, beBytes, successByte, readyByte]

/-- Witness for `prove_request_tail` at the scenario-5 input. -/
theorem prove_request_tail_witness :
    proveRequestBytes inputScenario5 =
      startStateBytes inputScenario5.StartState ++
        [0x00, 0x00, 0x00, 0x00, 0x00, 0x00, 0x00, 0x00, 0x00, 0x00, 0x04] :=
  prove_request_tail inputScenario5 rfl rfl rfl

/-- C5: for every input whose id is a key of the compiled-in ignore list,
`prove` returns the mapped global state with no error and no child
interaction (the `ignored` outcome: on that source path no stdin write and
no TCP listen, accept, read or write occurs). -/
theorem prove_ignore_list (e : ValidationInput) (s : GoGlobalState)
    (h : ignoreProveBlocks.lookup e.Id = some s) :
    prove e = ProveOutcome.ignored s := by
  simp [prove, h]

/-- Concrete input with the first ignored id. -/
def inputIgnored : ValidationInput :=
  { Id := 4083577, HasDelayedMsg := false, DelayedMsgNr := 0, DelayedMsg := [],
    StartState := ⟨0, 0, 0, 0⟩, BatchInfoList := [], Preimages := [] }

/-- Witness for `prove_ignore_list` at id 4083577. -/
theorem prove_ignore_list_witness :
    prove inputIgnored = ProveOutcome.ignored
      ⟨9178, 480,
        0xda2d176f5b585b131e1272efbfe458d4682938263fdeda42982083fb14186a84,
        0x73e3fd5339538bb97fb2ab3f1affc7971c8ea591c1f324e22cbc5b4d01b7b4ee⟩ :=
  prove_ignore_list inputIgnored _ (by decide)

/-- C9: `TxIdForRedeemAttempt` is the keccak256 of the ticket id bytes,
one zero byte, and the 8-byte little-endian try sequence number; at the
zero ticket and try sequence 1 this is keccak256 of 32 zero bytes, a zero
byte, and bytes 01 00 00 00 00 00 00 00. -/
theorem txIdForRedeemAttempt_spec (keccak256 : List Nat → Nat)
    (ticketId trySequenceNum : Nat) :
    TxIdForRedeemAttempt keccak256 ticketId trySequenceNum =
      keccak256 (beBytes 32 ticketId ++ [0] ++ PutUint64LE trySequenceNum)
  ∧ TxIdForRedeemAttempt keccak256 0 1 =
      keccak256 (List.replicate 32 0 ++ [0] ++ [1, 0, 0, 0, 0, 0, 0, 0]) := by
  constructor
  · rfl
  · show keccak256 _ = keccak256 _
    congr 1

/-! Helper lemmas about the timeout word encoding. -/

/-- Round trip of the timeout slot: a uint64 value stored through
`IntToHash (int64 t)` reads back unchanged through `Big().Uint64()`. -/
theorem hashToUint64_IntToHash (x : Nat) (hx : x < 2 ^ 64) :
    hashToUint64 (IntToHash (int64ofUint64 x)) = x := by
  simp only [hashToUint64, IntToHash, int64ofUint64]
  split <;> omega

/-- The timeout word is the zero sentinel exactly for the zero uint64
value. -/
theorem IntToHash_eq_zero (x : Nat) (hx : x < 2 ^ 64) :
    IntToHash (int64ofUint64 x) = 0 ↔ x = 0 := by
  simp only [IntToHash, int64ofUint64]
  split <;> omega

/-- The stored timeout of one ticket id, read from its slot as uint64. -/
def storedTimeout (rs : RetryableState) (id : Nat) : Nat :=
  hashToUint64 ((rs.retryables id).word timeoutOffset)

/-- Opening a retryable succeeds exactly on a nonzero timeout word and
returns the uncached handle for that id. -/
theorem OpenRetryable_eq (rs : RetryableState) (id ts : Nat) (r : Retryable)
    (h : rs.OpenRetryable id ts = some r) :
    (rs.retryables id).word timeoutOffset ≠ 0 ∧
    r = { id := id, numTries := none, timeout := none, fromAddr := none,
          «to» := none, callvalue := none, beneficiary := none, calldata := none } := by
  by_cases h0 : (rs.retryables id).word timeoutOffset = 0 <;>
    simp [RetryableState.OpenRetryable, h0] at h
  exact ⟨h0, h.symm⟩

/-- Shared shape of a successful keep-alive: on a live ticket whose stored
timeout is at most the limit, Keepalive writes the wrapped sum into the
timeout slot and returns true. -/
theorem Keepalive_of_le (rs : RetryableState) (id ts L d : Nat)
    (hlive : (rs.retryables id).word timeoutOffset ≠ 0)
    (hle : storedTimeout rs id ≤ L) :
    rs.Keepalive id ts L d =
      (rs.update id (fun sl => sl.setWord timeoutOffset
        (IntToHash (int64ofUint64 ((storedTimeout rs id + d) % 2 ^ 64)))), true) := by
  have hle' : hashToUint64 ((rs.retryables id).word timeoutOffset) ≤ L := hle
  have hnot : ¬ (L < hashToUint64 ((rs.retryables id).word timeoutOffset)) :=
    Nat.not_lt.mpr hle'
  simp [RetryableState.Keepalive, RetryableState.OpenRetryable, hlive,
    Retryable.Timeout, Retryable.SetTimeout, storedTimeout, hnot]

/-- Reading the timeout slot after an update of that same slot. -/
theorem storedTimeout_update (rs : RetryableState) (id v : Nat) :
    storedTimeout
      (rs.update id (fun sl => sl.setWord timeoutOffset v)) id =
      hashToUint64 v := by
  simp [storedTimeout, RetryableState.update, RetryableSlots.setWord]

/-- C3: Keepalive returns false when the ticket is absent; returns false
and leaves the whole state unchanged when the current timeout strictly
exceeds the limit; and otherwise returns true and sets the stored timeout
to the uint64 sum of the old timeout and the extension, touching neither
the queue nor any other ticket. -/
theorem keepalive_cases (rs : RetryableState) (id ts L d : Nat) :
    (rs.OpenRetryable id ts = none → rs.Keepalive id ts L d = (rs, false))
  ∧ (∀ r, rs.OpenRetryable id ts = some r → L < r.Timeout rs →
      rs.Keepalive id ts L d = (rs, false))
  ∧ (∀ r, rs.OpenRetryable id ts = some r → r.Timeout rs ≤ L →
      (rs.Keepalive id ts L d).2 = true
      ∧ storedTimeout (rs.Keepalive id ts L d).1 id = (r.Timeout rs + d) % 2 ^ 64
      ∧ (rs.Keepalive id ts L d).1.timeoutQueue = rs.timeoutQueue
      ∧ ∀ j, j ≠ id → (rs.Keepalive id ts L d).1.retryables j = rs.retryables j) := by
  refine ⟨?_, ?_, ?_⟩
  · intro h
    simp [RetryableState.Keepalive, h]
  · intro r hr hL
    obtain ⟨hlive, rfl⟩ := OpenRetryable_eq rs id ts r hr
    simp only [Retryable.Timeout] at hL
    simp [RetryableState.Keepalive, hr, Retryable.Timeout, hL]
  · intro r hr hle
    obtain ⟨hlive, rfl⟩ := OpenRetryable_eq rs id ts r hr
    simp only [Retryable.Timeout] at hle ⊢
    rw [Keepalive_of_le rs id ts L d hlive hle]
    refine ⟨rfl, ?_, rfl, ?_⟩
    · rw [storedTimeout_update]
      exact hashToUint64_IntToHash _ (Nat.mod_lt _ (by norm_num))
    · intro j hj
      simp [RetryableState.update, hj]

/-- Concrete registry state of end-to-end scenario 3: one live ticket with
id 1 and stored timeout 800, enqueued once. -/
def rsScenario3 : RetryableState :=
  { retryables := fun i =>
      if i = 1 then { word := fun o => if o = timeoutOffset then 800 else 0,
                      calldata := [] }
      else { word := fun _ => 0, calldata := [] },
    timeoutQueue := [1] }

/-- The uncached handle for ticket id 1. -/
def handle1 : Retryable :=
  { id := 1, numTries := none, timeout := none, fromAddr := none,
    «to» := none, callvalue := none, beneficiary := none, calldata := none }

/-- Witness for `keepalive_cases`: scenario 3, timeout 800, now 500,
limit 900, extension 300 gives true and stored timeout 1100. -/
theorem keepalive_cases_witness :
    (rsScenario3.Keepalive 1 500 900 300).2 = true
    ∧ storedTimeout (rsScenario3.Keepalive 1 500 900 300).1 1 =
        (handle1.Timeout rsScenario3 + 300) % 2 ^ 64 :=
  ⟨((keepalive_cases rsScenario3 1 500 900 300).2.2 handle1 (by decide) (by decide)).1,
   ((keepalive_cases rsScenario3 1 500 900 300).2.2 handle1 (by decide) (by decide)).2.1⟩

/-- C10: a successful Keepalive on a live ticket stores the sum modulo
2 ^ 64; when that sum is congruent to 0 the stored word becomes the zero
absence sentinel, so the ticket is absent to OpenRetryable although
Keepalive returned true. -/
theorem keepalive_wraps_modulo (rs : RetryableState) (id ts ts' L d : Nat)
    (r : Retryable) (hr : rs.OpenRetryable id ts = some r)
    (hle : r.Timeout rs ≤ L) :
    (rs.Keepalive id ts L d).2 = true
    ∧ storedTimeout (rs.Keepalive id ts L d).1 id = (r.Timeout rs + d) % 2 ^ 64
    ∧ ((r.Timeout rs + d) % 2 ^ 64 = 0 →
        (rs.Keepalive id ts L d).1.OpenRetryable id ts' = none) := by
  obtain ⟨hlive, rfl⟩ := OpenRetryable_eq rs id ts r hr
  simp only [Retryable.Timeout] at hle ⊢
  rw [Keepalive_of_le rs id ts L d hlive hle]
  refine ⟨rfl, ?_, ?_⟩
  · rw [storedTimeout_update]
    exact hashToUint64_IntToHash _ (Nat.mod_lt _ (by norm_num))
  · intro h0
    have hw : IntToHash (int64ofUint64
        ((storedTimeout rs id + d) % 2 ^ 64)) = 0 :=
      (IntToHash_eq_zero _ (Nat.mod_lt _ (by norm_num))).mpr h0
    simp [RetryableState.OpenRetryable, RetryableState.update,
      RetryableSlots.setWord, hw]
    exact hw

/-- Concrete state with stored timeout 2 ^ 64 - 1 at ticket id 1 (the word
value is what SetTimeout writes for that uint64). -/
def rsMaxTimeout : RetryableState :=
  { retryables := fun i =>
      if i = 1 then { word := fun o => if o = timeoutOffset then 2 ^ 256 - 1 else 0,
                      calldata := [] }
      else { word := fun _ => 0, calldata := [] },
    timeoutQueue := [1] }

/-- Witness for `keepalive_wraps_modulo`: timeout 2 ^ 64 - 1 plus 1 wraps
to the zero sentinel and the ticket becomes absent. -/
theorem keepalive_wraps_modulo_witness :
    (rsMaxTimeout.Keepalive 1 0 (2 ^ 64 - 1) 1).2 = true
    ∧ (rsMaxTimeout.Keepalive 1 0 (2 ^ 64 - 1) 1).1.OpenRetryable 1 7 = none :=
  ⟨(keepalive_wraps_modulo rsMaxTimeout 1 0 7 (2 ^ 64 - 1) 1 handle1
      (by decide) (by decide)).1,
   (keepalive_wraps_modulo rsMaxTimeout 1 0 7 (2 ^ 64 - 1) 1 handle1
      (by decide) (by decide)).2.2 (by decide)⟩

/-- C6: TryToReapOneRetryable is a no-op on the empty queue; otherwise it
processes exactly the head id: storage slots are untouched, a present id
is re-enqueued at the tail, an absent id is dropped; and the result does
not depend on the current timestamp (no expiry comparison). -/
theorem tryToReapOne_cases (rs : RetryableState) (now now' : Nat) :
    (rs.timeoutQueue = [] → rs.TryToReapOneRetryable now = rs)
  ∧ (∀ id rest, rs.timeoutQueue = id :: rest →
      (rs.TryToReapOneRetryable now).retryables = rs.retryables
      ∧ ((rs.retryables id).word timeoutOffset ≠ 0 →
          (rs.TryToReapOneRetryable now).timeoutQueue = rest ++ [id])
      ∧ ((rs.retryables id).word timeoutOffset = 0 →
          (rs.TryToReapOneRetryable now).timeoutQueue = rest))
  ∧ rs.TryToReapOneRetryable now = rs.TryToReapOneRetryable now' := by
  refine ⟨?_, ?_, ?_⟩
  · intro h
    simp [RetryableState.TryToReapOneRetryable, h]
  · intro id rest hq
    by_cases hl : (rs.retryables id).word timeoutOffset = 0 <;>
      simp [RetryableState.TryToReapOneRetryable, hq,
        RetryableState.OpenRetryable, hl]
  · cases hq : rs.timeoutQueue with
    | nil => simp [RetryableState.TryToReapOneRetryable, hq]
    | cons id rest =>
      by_cases hl : (rs.retryables id).word timeoutOffset = 0 <;>
        simp [RetryableState.TryToReapOneRetryable, hq,
          RetryableState.OpenRetryable, hl]

/-- Witness for `tryToReapOne_cases`: the live ticket of scenario 3 is
popped and re-enqueued at the tail. -/
theorem tryToReapOne_cases_witness :
    (rsScenario3.TryToReapOneRetryable 0).timeoutQueue = [] ++ [1] :=
  ((tryToReapOne_cases rsScenario3 0 0).2.1 1 [] rfl).2.1 (by decide)

/-- C8: for every unsigned 64-bit value t, after SetTimeout t both the
handle getter and OpenRetryable followed by the getter read back exactly
t. -/
theorem setTimeout_roundtrip (rs : RetryableState) (r : Retryable)
    (t ts : Nat) (ht : t < 2 ^ 64) :
    (r.SetTimeout rs t).1.Timeout (r.SetTimeout rs t).2 = t
  ∧ (∀ r', (r.SetTimeout rs t).2.OpenRetryable r.id ts = some r' →
      r'.Timeout (r.SetTimeout rs t).2 = t) := by
  constructor
  · rfl
  · intro r' hr'
    obtain ⟨hlive, rfl⟩ := OpenRetryable_eq _ _ _ _ hr'
    show storedTimeout (r.SetTimeout rs t).2 r.id = t
    show storedTimeout
      (rs.update r.id (fun sl => sl.setWord timeoutOffset
        (IntToHash (int64ofUint64 t)))) r.id = t
    rw [storedTimeout_update]
    exact hashToUint64_IntToHash t ht

/-- Witness for `setTimeout_roundtrip` at a value above 2 ^ 63, where the
stored word goes through the negative int64 path. -/
theorem setTimeout_roundtrip_witness :
    (handle1.SetTimeout InitializeRetryableState (2 ^ 63 + 5)).2.OpenRetryable 1 0 =
        some handle1
    ∧ handle1.Timeout
        (handle1.SetTimeout InitializeRetryableState (2 ^ 63 + 5)).2 = 2 ^ 63 + 5 :=
  ⟨by decide,
   (setTimeout_roundtrip InitializeRetryableState handle1 (2 ^ 63 + 5) 0
      (by norm_num)).2 handle1 (by decide)⟩

/-- C1: evaluation at the failing input (end-to-end scenario 1 of the
spec: id 0x11…11, timeout 1000, callvalue 0, empty calldata, nil `to`):
CreateRetryable returns no handle, because the source dereferences the nil
`to` pointer in `to.Bytes()`; with any non-nil `to` the same call returns
a handle. -/
theorem createRetryable_nil_to :
    InitializeRetryableState.CreateRetryable 0
      0x1111111111111111111111111111111111111111111111111111111111111111
      1000 0 none 0 0 [] = none
  ∧ (InitializeRetryableState.CreateRetryable 0
      0x1111111111111111111111111111111111111111111111111111111111111111
      1000 0 (some 5) 0 0 []).isSome = true :=
  ⟨rfl, rfl⟩

/-- C7 invariant: every live retryable (nonzero stored timeout word) has
its ticket id in the timeout queue at least once. -/
def TimeoutQueueInvariant (rs : RetryableState) : Prop :=
  ∀ id, (rs.retryables id).word timeoutOffset ≠ 0 → id ∈ rs.timeoutQueue

/-- Registry states reachable from the initialized state through the
mutating operations. OpenRetryable and RetryableSizeBytes do not modify
the state (they are pure functions of it in this model), so they need no
step. -/
inductive Reachable : RetryableState → Prop where
  | init : Reachable InitializeRetryableState
  | create (rs rs' : RetryableState) (r : Retryable) (ts id t f : Nat)
      (toA : Option Nat) (cv b : Nat) (cd : List Nat)
      (h : Reachable rs)
      (hc : rs.CreateRetryable ts id t f toA cv b cd = some (rs', r)) :
      Reachable rs'
  | delete (rs : RetryableState) (id : Nat) (h : Reachable rs) :
      Reachable (rs.DeleteRetryable id).1
  | keepalive (rs : RetryableState) (id ts L d : Nat) (h : Reachable rs) :
      Reachable (rs.Keepalive id ts L d).1
  | reap (rs : RetryableState) (ts : Nat) (h : Reachable rs) :
      Reachable (rs.TryToReapOneRetryable ts)
  | incrementNumTries (rs : RetryableState) (r : Retryable) (h : Reachable rs) :
      Reachable (r.IncrementNumTries rs).2.1

/-- One reap step preserves the invariant. -/
theorem inv_reap (rs : RetryableState) (ts : Nat)
    (h : TimeoutQueueInvariant rs) :
    TimeoutQueueInvariant (rs.TryToReapOneRetryable ts) := by
  intro j hj
  cases hq : rs.timeoutQueue with
  | nil =>
    simp [RetryableState.TryToReapOneRetryable, hq] at hj ⊢
    have hm := h j hj
    rw [hq] at hm
    simp at hm
  | cons id rest =>
    by_cases hl : (rs.retryables id).word timeoutOffset = 0
    · simp [RetryableState.TryToReapOneRetryable, hq,
        RetryableState.OpenRetryable, hl] at hj ⊢
      have hm := h j hj
      rw [hq] at hm
      rcases List.mem_cons.mp hm with rfl | hm2
      · exact absurd hl hj
      · exact hm2
    · simp [RetryableState.TryToReapOneRetryable, hq,
        RetryableState.OpenRetryable, hl] at hj ⊢
      have hm := h j hj
      rw [hq] at hm
      rcases List.mem_cons.mp hm with rfl | hm2
      · exact Or.inr rfl
      · exact Or.inl hm2

/-- A successful creation preserves the invariant. -/
theorem inv_create (rs rs' : RetryableState) (r : Retryable) (ts id t f : Nat)
    (toA : Option Nat) (cv b : Nat) (cd : List Nat)
    (h : TimeoutQueueInvariant rs)
    (hc : rs.CreateRetryable ts id t f toA cv b cd = some (rs', r)) :
    TimeoutQueueInvariant rs' := by
  have h0 := inv_reap rs ts h
  cases toA with
  | none => simp [RetryableState.CreateRetryable] at hc
  | some a =>
    simp [RetryableState.CreateRetryable] at hc
    obtain ⟨hrs', hr⟩ := hc
    subst hrs'
    intro j hj
    by_cases hji : j = id
    · subst hji
      simp
    · simp [RetryableState.update, hji] at hj ⊢
      exact h0 j hj

/-- Deletion preserves the invariant. -/
theorem inv_delete (rs : RetryableState) (id : Nat)
    (h : TimeoutQueueInvariant rs) :
    TimeoutQueueInvariant (rs.DeleteRetryable id).1 := by
  intro j hj
  by_cases h0 : (rs.retryables id).word timeoutOffset = 0
  · simp only [timeoutOffset] at h0
    simp [RetryableState.DeleteRetryable, timeoutOffset, h0] at hj ⊢
    exact h j hj
  · simp only [timeoutOffset] at h0
    by_cases hji : j = id
    · subst hji
      simp [RetryableState.DeleteRetryable, timeoutOffset, h0,
        RetryableState.update] at hj
    · simp [RetryableState.DeleteRetryable, timeoutOffset, h0,
        RetryableState.update, hji] at hj ⊢
      exact h j hj

/-- Keepalive preserves the invariant. -/
theorem inv_keepalive (rs : RetryableState) (id ts L d : Nat)
    (h : TimeoutQueueInvariant rs) :
    TimeoutQueueInvariant (rs.Keepalive id ts L d).1 := by
  by_cases hlive : (rs.retryables id).word timeoutOffset = 0
  · simpa [RetryableState.Keepalive, RetryableState.OpenRetryable, hlive] using h
  · by_cases hcmp : L < hashToUint64 ((rs.retryables id).word timeoutOffset)
    · simpa [RetryableState.Keepalive, RetryableState.OpenRetryable, hlive,
        Retryable.Timeout, hcmp] using h
    · rw [Keepalive_of_le rs id ts L d hlive (Nat.not_lt.mp hcmp)]
      intro j hj
      by_cases hji : j = id
      · subst hji
        simpa [RetryableState.update] using h _ hlive
      · simp [RetryableState.update, hji] at hj ⊢
        exact h j hj

/-- Incrementing the redemption counter preserves the invariant: only the
numTries slot is written. -/
theorem inv_incrementNumTries (rs : RetryableState) (r : Retryable)
    (h : TimeoutQueueInvariant rs) :
    TimeoutQueueInvariant (r.IncrementNumTries rs).2.1 := by
  intro j hj
  by_cases hji : j = r.id
  · subst hji
    simp [Retryable.IncrementNumTries, Retryable.SetNumTries,
      RetryableState.update, RetryableSlots.setWord, timeoutOffset,
      numTriesOffset] at hj ⊢
    exact h _ hj
  · simp [Retryable.IncrementNumTries, Retryable.SetNumTries,
      RetryableState.update, hji] at hj ⊢
    exact h j hj

/-- C7: every reachable registry state keeps the id of every live
retryable in the timeout queue at least once; the property holds in the
initialized state and is preserved by every operation (CreateRetryable,
DeleteRetryable, Keepalive, TryToReapOneRetryable, IncrementNumTries;
OpenRetryable and RetryableSizeBytes do not modify the state). -/
theorem reachable_timeoutQueue_invariant (rs : RetryableState)
    (h : Reachable rs) : TimeoutQueueInvariant rs := by
  induction h with
  | init =>
    intro j hj
    simp [InitializeRetryableState] at hj
  | create rs rs' r ts id t f toA cv b cd h hc ih =>
    exact inv_create rs rs' r ts id t f toA cv b cd ih hc
  | delete rs id h ih => exact inv_delete rs id ih
  | keepalive rs id ts L d h ih => exact inv_keepalive rs id ts L d ih
  | reap rs ts h ih => exact inv_reap rs ts ih
  | incrementNumTries rs r h ih => exact inv_incrementNumTries rs r ih

/-- Witness for `reachable_timeoutQueue_invariant` at a concrete reachable
state. -/
theorem reachable_timeoutQueue_invariant_witness :
    TimeoutQueueInvariant ((InitializeRetryableState.Keepalive 1 2 3 4).1) :=
  reachable_timeoutQueue_invariant _
    (Reachable.keepalive InitializeRetryableState 1 2 3 4 Reachable.init)
